import Mathlib

/-!
Verification of the configuration resolution and validation engine of the
lean-cli repository (`lean/commands/live.py`, `lean/click.py`).

The Python dictionaries that hold the LEAN configuration are embedded as
ordered association lists (`Dict`), matching CPython's insertion-ordered
dictionaries with unique keys; `Value` covers the JSON-like value types
appearing in a configuration document.  The pieces of `live.py` that the
claims are about — the two requirement tables, `_raise_for_missing_properties`,
the validation prelude of the `live` command (lines 627-636), the environment
merge (lines 613-621), and the organization-id cache (`_get_organization_id`
plus the global reset at the start of `live`) — are translated function by
function below.  Exceptions raised by the Python code are modelled as
`Except` values; a raw dictionary access on an absent key becomes the
distinguished `pythonKeyError` outcome.
-/

namespace LeanCLI

/-- A JSON-like configuration value: string, number, boolean, nested
mapping or sequence (the value types of the LEAN configuration file). -/
inductive Value where
  | vStr (s : String)
  | vInt (n : Int)
  | vBool (b : Bool)
  | vObj (fields : List (String × Value))
  | vArr (elems : List Value)

/-- A Python dictionary: an insertion-ordered association list.  Python
dictionaries always have unique keys; `Dict.NodupKeys` states that
invariant where a proof needs it. -/
abbrev Dict := List (String × Value)

namespace Dict

/-- `d[k]` as a total lookup: the value at the first (for a Python dict,
the only) entry with key `k`. -/
def getVal (d : Dict) (k : String) : Option Value :=
  (d.find? (fun p => p.1 == k)).map Prod.snd

/-- Python's `k in d`. -/
def containsKey (d : Dict) (k : String) : Bool :=
  d.any (fun p => p.1 == k)

/-- Python's `d[k] = v`: replace the value at an existing key in place
(keeping its position), otherwise append the new binding at the end. -/
def setKey : Dict → String → Value → Dict
  | [], k, v => [(k, v)]
  | p :: rest, k, v => if p.1 == k then (k, v) :: rest else p :: setKey rest k v

/-- The ordered list of keys of a dictionary. -/
def keys (d : Dict) : List String :=
  d.map Prod.fst

/-- Python dictionaries have unique keys. -/
abbrev NodupKeys (d : Dict) : Prop :=
  d.keys.Nodup

end Dict

/-- The `_required_brokerage_properties` table of `live.py`:
brokerage identifier → required configuration properties. -/
def requiredBrokerageProperties : List (String × List String) :=
  [("InteractiveBrokersBrokerage",
    ["ib-account", "ib-user-name", "ib-password", "ib-agent-description", "ib-trading-mode"]),
   ("TradierBrokerage",
    ["tradier-use-sandbox", "tradier-account-id", "tradier-access-token"]),
   ("OandaBrokerage",
    ["oanda-environment", "oanda-access-token", "oanda-account-id"]),
   ("GDAXBrokerage",
    ["gdax-api-secret", "gdax-api-key", "gdax-passphrase"]),
   ("BitfinexBrokerage",
    ["bitfinex-api-secret", "bitfinex-api-key"]),
   ("BinanceBrokerage",
    ["binance-api-secret", "binance-api-key"]),
   ("ZerodhaBrokerage",
    ["zerodha-access-token", "zerodha-api-key", "zerodha-product-type", "zerodha-trading-segment"]),
   ("BloombergBrokerage",
    ["job-organization-id", "bloomberg-api-type", "bloomberg-environment",
     "bloomberg-server-host", "bloomberg-server-port", "bloomberg-emsx-broker"])]

/-- Python's `table.get(id, [])` on a requirement table. -/
def tableGet (table : List (String × List String)) (id : String) : List String :=
  ((table.find? (fun p => p.1 == id)).map Prod.snd).getD []

/-- `_required_brokerage_properties.get(id, [])`. -/
def brokerageRequirements (id : String) : List String :=
  tableGet requiredBrokerageProperties id

/-- The `_required_data_queue_handler_properties` table of `live.py`,
built from the brokerage table exactly as in the source. -/
def requiredDataQueueHandlerProperties : List (String × List String) :=
  [("QuantConnect.Brokerages.InteractiveBrokers.InteractiveBrokersBrokerage",
    brokerageRequirements "InteractiveBrokersBrokerage" ++ ["ib-enable-delayed-streaming-data"]),
   ("TradierBrokerage", brokerageRequirements "TradierBrokerage"),
   ("OandaBrokerage", brokerageRequirements "OandaBrokerage"),
   ("GDAXDataQueueHandler", brokerageRequirements "GDAXBrokerage"),
   ("BitfinexBrokerage", brokerageRequirements "BitfinexBrokerage"),
   ("BinanceBrokerage", brokerageRequirements "BinanceBrokerage"),
   ("ZerodhaBrokerage", brokerageRequirements "ZerodhaBrokerage" ++ ["zerodha-history-subscription"]),
   ("BloombergBrokerage", brokerageRequirements "BloombergBrokerage"),
   ("QuantConnect.ToolBox.IQFeed.IQFeedDataQueueHandler",
    ["iqfeed-iqconnect", "iqfeed-productName", "iqfeed-version"])]

/-- `_required_data_queue_handler_properties.get(id, [])`. -/
def dataQueueHandlerRequirements (id : String) : List String :=
  tableGet requiredDataQueueHandlerProperties id

/-- Python's `v == ""` for a configuration value: only the empty string
compares equal to `""` (`0 == ""` and `False == ""` are both `False`). -/
def pyEqEmptyString : Value → Bool
  | .vStr s => s == ""
  | _ => false

/-- Python's `bool(v)` truthiness for a configuration value. -/
def truthy : Value → Bool
  | .vStr s => !(s == "")
  | .vInt n => !(n == 0)
  | .vBool b => b
  | .vObj fields => !fields.isEmpty
  | .vArr elems => !elems.isEmpty

/-- `p not in lean_config or lean_config[p] == ""` — the per-property
missing test of `_raise_for_missing_properties` (line 96). -/
def isPropertyMissing (cfg : Dict) (p : String) : Bool :=
  match cfg.getVal p with
  | none => true
  | some v => pyEqEmptyString v

/-- `set(p for p in required if p not in cfg or cfg[p] == "")` for an
arbitrary pair of requirement tables. -/
def missingPropertySetWith (brokTable dqhTable : List (String × List String))
    (cfg : Dict) (brokerage dataQueueHandler : String) : Finset String :=
  ((tableGet brokTable brokerage ++ tableGet dqhTable dataQueueHandler).filter
    (fun p => isPropertyMissing cfg p)).toFinset

/-- The set of missing properties computed by
`_raise_for_missing_properties` (lines 92-97). -/
def missingPropertySet (cfg : Dict) (brokerage dataQueueHandler : String) : Finset String :=
  missingPropertySetWith requiredBrokerageProperties requiredDataQueueHandlerProperties
    cfg brokerage dataQueueHandler

/-- The error outcomes of the validation pipeline.  `pythonKeyError`
stands for an uncaught exception escaping a raw dictionary access; the
other constructors carry the data of the errors raised by the source
(`MoreInfoError` for the first four, `RuntimeError` for the last).
`missingRequiredProperties` carries a `Finset` because the source
converts the missing list to a Python `set` (line 97), whose iteration
order is unspecified. -/
inductive ValidationError where
  | environmentUndeclared (environmentName : String)
  | pythonKeyError (key : String)
  | missingRequiredKey (environmentName : String) (key : String)
  | notLiveEnvironment (environmentName : String)
  | missingRequiredProperties (missing : Finset String)
deriving DecidableEq

/-- The message of the `MoreInfoError` raised when an environment lacks
`live-mode-brokerage` or `data-queue-handler` (line 86 of `live.py`). -/
def missingRequiredKeyMessage (environmentName key : String) : String :=
  "The '" ++ environmentName ++ "' environment does not specify a " ++ key

/-- `_raise_for_missing_properties(lean_config, environment_name, ...)`
(lines 76-111 of `live.py`), parametrised by the two requirement tables
so that order-of-checks facts can be stated for arbitrary tables.  The
`for key in [...]` loop raises for the first absent key, so the two key
checks happen in sequence, `live-mode-brokerage` first. -/
def raiseForMissingPropertiesWith (brokTable dqhTable : List (String × List String))
    (cfg : Dict) (environmentName : String) : Except ValidationError Unit :=
  match cfg.getVal "environments" with
  | some (.vObj envs) =>
    match Dict.getVal envs environmentName with
    | some (.vObj environment) =>
      if !Dict.containsKey environment "live-mode-brokerage" then
        .error (.missingRequiredKey environmentName "live-mode-brokerage")
      else if !Dict.containsKey environment "data-queue-handler" then
        .error (.missingRequiredKey environmentName "data-queue-handler")
      else
        let brokerageProperties :=
          match Dict.getVal environment "live-mode-brokerage" with
          | some (.vStr brokerage) => tableGet brokTable brokerage
          | _ => []
        let dataQueueHandlerProperties :=
          match Dict.getVal environment "data-queue-handler" with
          | some (.vStr dataQueueHandler) => tableGet dqhTable dataQueueHandler
          | _ => []
        let missing := ((brokerageProperties ++ dataQueueHandlerProperties).filter
          (fun p => isPropertyMissing cfg p)).toFinset
        if missing = ∅ then .ok ()
        else .error (.missingRequiredProperties missing)
    | _ => .error (.pythonKeyError environmentName)
  | _ => .error (.pythonKeyError "environments")

/-- `_raise_for_missing_properties` with the tables of the source. -/
def raiseForMissingProperties (cfg : Dict) (environmentName : String) :
    Except ValidationError Unit :=
  raiseForMissingPropertiesWith requiredBrokerageProperties
    requiredDataQueueHandlerProperties cfg environmentName

/-- The validation pipeline of the `live` command after the configuration
has been built (lines 627-636 of `live.py`): first the environment
presence check, then the raw `["live-mode"]` access and truthiness test,
then `_raise_for_missing_properties`. -/
def validateLiveWith (brokTable dqhTable : List (String × List String))
    (cfg : Dict) (environmentName : String) : Except ValidationError Unit :=
  let declared :=
    match cfg.getVal "environments" with
    | some (.vObj envs) => Dict.containsKey envs environmentName
    | _ => false
  if !declared then .error (.environmentUndeclared environmentName)
  else
    match cfg.getVal "environments" with
    | some (.vObj envs) =>
      match Dict.getVal envs environmentName with
      | some (.vObj environment) =>
        match Dict.getVal environment "live-mode" with
        | none => .error (.pythonKeyError "live-mode")
        | some v =>
          if !truthy v then .error (.notLiveEnvironment environmentName)
          else raiseForMissingPropertiesWith brokTable dqhTable cfg environmentName
      | _ => .error (.pythonKeyError environmentName)
    | _ => .error (.pythonKeyError "environments")

/-- The validation pipeline with the requirement tables of the source. -/
def validateLive (cfg : Dict) (environmentName : String) : Except ValidationError Unit :=
  validateLiveWith requiredBrokerageProperties requiredDataQueueHandlerProperties
    cfg environmentName

/-- The environment stored under `cfg["environments"][environmentName]`,
when it exists. -/
def lookupEnvironment (cfg : Dict) (environmentName : String) : Option Value :=
  match cfg.getVal "environments" with
  | some (.vObj envs) => Dict.getVal envs environmentName
  | _ => none

/-- The configuration of scenario B of the spec: brokerage and
data-queue-handler both `OandaBrokerage`, and of the required Oanda keys
only `oanda-account-id` present. -/
def scenarioBConfig : Dict :=
  [("environments", .vObj [("lean-cli", .vObj
      [("live-mode", .vBool true),
       ("live-mode-brokerage", .vStr "OandaBrokerage"),
       ("data-queue-handler", .vStr "OandaBrokerage")])]),
   ("oanda-account-id", .vStr "001-011-1234567-001")]

/-- The `_environment_skeleton` dictionary of `live.py` (lines 67-73). -/
def environmentSkeleton : Dict :=
  [("live-mode", .vBool true),
   ("setup-handler", .vStr "QuantConnect.Lean.Engine.Setup.BrokerageSetupHandler"),
   ("result-handler", .vStr "QuantConnect.Lean.Engine.Results.LiveTradingResultHandler"),
   ("data-feed-handler", .vStr "QuantConnect.Lean.Engine.DataFeeds.LiveTradingDataFeed"),
   ("real-time-handler", .vStr "QuantConnect.Lean.Engine.RealTime.LiveTradingRealTimeHandler")]

/-- Store every entry of `props` as a top-level key of `cfg`, in order. -/
def applyTopLevel (cfg : Dict) (props : Dict) : Dict :=
  props.foldl (fun c p => Dict.setKey c p.1 p.2) cfg

/-- `cfg["environments"][environmentName][key] = v` when both outer
lookups succeed, leaving `cfg` unchanged otherwise. -/
def setEnvironmentKey (cfg : Dict) (environmentName key : String) (v : Value) : Dict :=
  match cfg.getVal "environments" with
  | some (.vObj envs) =>
    match Dict.getVal envs environmentName with
    | some (.vObj environment) =>
      Dict.setKey cfg "environments"
        (.vObj (Dict.setKey envs environmentName (.vObj (Dict.setKey environment key v))))
    | _ => cfg
  | _ => cfg

/-- Modelled from the spec: the `configure` methods of the brokerage and
data-feed configurer classes (`lean/models/brokerages/local/*`) are not
part of the source sample; per §4.2 of the spec each one applies its
credential entries as top-level keys on the document and sets the
environment's identifier key (`live-mode-brokerage` resp.
`data-queue-handler`) to the canonical identifier. -/
def configureEnvironment (cfg : Dict) (environmentName idKey canonicalId : String)
    (props : Dict) : Dict :=
  setEnvironmentKey (applyTopLevel cfg props) environmentName idKey (.vStr canonicalId)

/-- The environment-building merge of the `live` command (lines 613-621
of `live.py`): `lean_config["environments"] = {environment_name: skeleton}`
followed by the brokerage configurer and the data-feed configurer. -/
def buildEnvironment (base : Dict) (environmentName : String) (skeleton : Dict)
    (brokerageId : String) (brokerageConfig : Dict)
    (dataFeedId : String) (dataFeedConfig : Dict) : Dict :=
  let cfg := Dict.setKey base "environments" (.vObj [(environmentName, .vObj skeleton)])
  let cfg := configureEnvironment cfg environmentName "live-mode-brokerage"
    brokerageId brokerageConfig
  configureEnvironment cfg environmentName "data-queue-handler" dataFeedId dataFeedConfig

/-- An organization as returned by the API collaborator. -/
structure Organization where
  id : String
  name : String
deriving DecidableEq

/-- The module-level mutable globals of `live.py`:
`_cached_organizations` (line 169) and `_cached_lean_config` (line 192). -/
structure GlobalState where
  cachedOrganizations : Option (List Organization)
  cachedLeanConfig : Option Dict

/-- The global reset at the start of the `live` command body
(lines 468-472 of `live.py`): both caches are cleared, whatever state the
previous invocation left behind. -/
def resetGlobals (_priorState : GlobalState) : GlobalState :=
  { cachedOrganizations := none, cachedLeanConfig := none }

/-- `next((o for o in orgs if o.id == given_input or o.name == given_input), None)`
followed by the membership error (lines 185-189 of `live.py`). -/
def findOrganization (orgs : List Organization) (givenInput : String) :
    Except String String :=
  match orgs.find? (fun o => o.id == givenInput || o.name == givenInput) with
  | some o => .ok o.id
  | none =>
    .error ("You are not a member of an organization with name or id '" ++ givenInput ++ "'")

/-- `_get_organization_id` (lines 172-189 of `live.py`): fetch the full
organization list from the API only when the cache is empty, then resolve
the input against the cached list.  `api` stands for the out-of-scope API
collaborator (`api_client.organizations.get_all()`); the third component
counts how many times that collaborator was called (0 or 1). -/
def getOrganizationId (api : List Organization) (st : GlobalState) (givenInput : String) :
    Except String String × GlobalState × Nat :=
  match st.cachedOrganizations with
  | none =>
    (findOrganization api givenInput,
     { st with cachedOrganizations := some api }, 1)
  | some orgs => (findOrganization orgs givenInput, st, 0)

/-- A sequence of organization name/id resolutions within one command
body, threading the global state and summing the API fetches. -/
def runLookups (api : List Organization) : GlobalState → List String → GlobalState × Nat
  | st, [] => (st, 0)
  | st, givenInput :: rest =>
    let r := getOrganizationId api st givenInput
    let r2 := runLookups api r.2.1 rest
    (r2.1, r.2.2 + r2.2)

/-- One command invocation as far as the organization cache is concerned:
the global reset of lines 468-472 followed by the resolutions the command
body performs. -/
def commandInvocation (api : List Organization) (priorState : GlobalState)
    (inputs : List String) : GlobalState × Nat :=
  runLookups api (resetGlobals priorState) inputs

/-! ### Helper functions used to characterise the merge -/

/-- The value the last entry of `props` with key `k` would write, if any. -/
def lookupLast : Dict → String → Option Value
  | [], _ => none
  | p :: rest, k =>
    match lookupLast rest k with
    | some v => some v
    | none => if p.1 == k then some p.2 else none

/-- Left-biased choice between optional values. -/
def orOpt (o w : Option Value) : Option Value :=
  match o with
  | some v => some v
  | none => w

/-- Append each key of `ks` that is not already present. -/
def addKeys (l : List String) : List String → List String
  | [] => l
  | k :: ks => addKeys (if k ∈ l then l else l ++ [k]) ks

/-- What `setEnvironmentKey` does to the `environments` value. -/
def envUpdate (environmentName key : String) (v : Value) : Option Value → Option Value
  | some (.vObj envs) =>
    match Dict.getVal envs environmentName with
    | some (.vObj environment) =>
      some (.vObj (Dict.setKey envs environmentName
        (.vObj (Dict.setKey environment key v))))
    | _ => some (.vObj envs)
  | w => w

/-- The value the merge leaves under the top-level `environments` key; it
depends only on the merge arguments, never on the base document. -/
def mergedEnvironmentsValue (environmentName : String) (skeleton : Dict)
    (brokerageId : String) (brokerageConfig : Dict)
    (dataFeedId : String) (dataFeedConfig : Dict) : Option Value :=
  envUpdate environmentName "data-queue-handler" (.vStr dataFeedId)
    (orOpt (lookupLast dataFeedConfig "environments")
      (envUpdate environmentName "live-mode-brokerage" (.vStr brokerageId)
        (orOpt (lookupLast brokerageConfig "environments")
          (some (.vObj [(environmentName, .vObj skeleton)])))))

/-! ### Basic lemmas about the dictionary embedding -/

namespace Dict

theorem getVal_cons (p : String × Value) (d : Dict) (k : String) :
    getVal (p :: d) k = if p.1 == k then some p.2 else getVal d k := by
  cases hp : p.1 == k <;> simp [getVal, List.find?, hp]

theorem containsKey_cons (p : String × Value) (d : Dict) (k : String) :
    containsKey (p :: d) k = (p.1 == k || containsKey d k) := by
  simp [containsKey]

theorem containsKey_eq_isSome : ∀ (d : Dict) (k : String),
    containsKey d k = (getVal d k).isSome
  | [], _ => rfl
  | p :: d, k => by
    cases hp : p.1 == k <;>
      simp [containsKey_cons, getVal_cons, hp, containsKey_eq_isSome d k]

theorem mem_keys_iff_containsKey (d : Dict) (k : String) :
    k ∈ keys d ↔ containsKey d k = true := by
  simp only [keys, containsKey, List.any_eq_true, List.mem_map, beq_iff_eq]

theorem getVal_eq_none_of_not_mem_keys {d : Dict} {k : String}
    (h : k ∉ keys d) : getVal d k = none := by
  have hc : containsKey d k = false := by
    cases hcc : containsKey d k
    · rfl
    · exact absurd ((mem_keys_iff_containsKey d k).2 hcc) h
  have h2 := containsKey_eq_isSome d k
  rw [hc] at h2
  cases hg : getVal d k with
  | none => rfl
  | some v => rw [hg] at h2; simp at h2

theorem getVal_setKey_self : ∀ (d : Dict) (k : String) (v : Value),
    getVal (setKey d k v) k = some v
  | [], k, v => by simp [setKey, getVal_cons]
  | p :: d, k, v => by
    cases hp : p.1 == k
    · simp [setKey, hp, getVal_cons, getVal_setKey_self d k v]
    · simp [setKey, hp, getVal_cons]

theorem getVal_setKey_ne : ∀ (d : Dict) (k k' : String) (v : Value), k' ≠ k →
    getVal (setKey d k v) k' = getVal d k'
  | [], k, k', v, h => by
    have hb : (k == k') = false := beq_eq_false_iff_ne.2 (fun hkk => h hkk.symm)
    simp [setKey, getVal_cons, getVal, hb]
  | p :: d, k, k', v, h => by
    have hb : (k == k') = false := beq_eq_false_iff_ne.2 (fun hkk => h hkk.symm)
    cases hp : p.1 == k
    · simp only [setKey, hp, Bool.false_eq_true, if_false, getVal_cons]
      rw [getVal_setKey_ne d k k' v h]
    · have hpk : p.1 = k := eq_of_beq hp
      simp [setKey, hp, getVal_cons, hpk, hb]

theorem keys_setKey : ∀ (d : Dict) (k : String) (v : Value),
    keys (setKey d k v) = if containsKey d k then keys d else keys d ++ [k]
  | [], k, v => by simp [setKey, keys, containsKey]
  | p :: d, k, v => by
    cases hp : p.1 == k
    · simp only [setKey, hp, Bool.false_eq_true, if_false, keys, List.map_cons,
        containsKey_cons, Bool.false_or]
      have := keys_setKey d k v
      simp only [keys] at this
      rw [this]
      cases containsKey d k <;> simp
    · have hpk : p.1 = k := eq_of_beq hp
      simp [setKey, hp, keys, containsKey_cons, hpk]

theorem nodupKeys_setKey {d : Dict} (k : String) (v : Value)
    (h : NodupKeys d) : NodupKeys (setKey d k v) := by
  unfold NodupKeys at h ⊢
  rw [keys_setKey]
  cases hc : containsKey d k
  · simp only [Bool.false_eq_true, if_false, List.nodup_append]
    refine ⟨h, List.nodup_singleton k, ?_⟩
    intro a ha hb
    simp at hb
    subst hb
    exact absurd ((mem_keys_iff_containsKey d a).1 ha) (by simp [hc])
  · simpa using h

theorem ext_of_keys_getVal : ∀ (d1 d2 : Dict), NodupKeys d1 → NodupKeys d2 →
    keys d1 = keys d2 → (∀ k, getVal d1 k = getVal d2 k) → d1 = d2
  | [], [], _, _, _, _ => rfl
  | [], q :: d2, _, _, hk, _ => by simp [keys] at hk
  | p :: d1, [], _, _, hk, _ => by simp [keys] at hk
  | p :: d1, q :: d2, h1, h2, hk, hv => by
    simp only [keys, List.map_cons, List.cons.injEq] at hk
    obtain ⟨hfst, htail⟩ := hk
    have hsnd : p.2 = q.2 := by
      have hvv := hv p.1
      rw [getVal_cons, getVal_cons, ← hfst] at hvv
      simp only [beq_self_eq_true, if_true, Option.some.injEq] at hvv
      exact hvv
    have hpq : p = q := Prod.ext hfst hsnd
    subst hpq
    have h1t : NodupKeys d1 := by
      unfold NodupKeys at h1 ⊢
      simp only [keys, List.map_cons, List.nodup_cons] at h1
      exact h1.2
    have h2t : NodupKeys d2 := by
      unfold NodupKeys at h2 ⊢
      simp only [keys, List.map_cons, List.nodup_cons] at h2
      exact h2.2
    have h1m : p.1 ∉ keys d1 := by
      unfold NodupKeys at h1
      simp only [keys, List.map_cons, List.nodup_cons] at h1
      exact h1.1
    have h2m : p.1 ∉ keys d2 := by
      unfold NodupKeys at h2
      simp only [keys, List.map_cons, List.nodup_cons] at h2
      exact h2.1
    have hvt : ∀ k, getVal d1 k = getVal d2 k := by
      intro k
      by_cases hkp : k = p.1
      · subst hkp
        rw [getVal_eq_none_of_not_mem_keys h1m, getVal_eq_none_of_not_mem_keys h2m]
      · have := hv k
        rw [getVal_cons, getVal_cons] at this
        have hb : (p.1 == k) = false := by
          rw [beq_eq_false_iff_ne]
          exact fun hkk => hkp hkk.symm
        rwa [hb, if_neg (by simp)] at this
    rw [ext_of_keys_getVal d1 d2 h1t h2t htail hvt]

end Dict

/-! ### Characterising the merge

`buildEnvironment` is a fixed sequence of top-level and environment-level
writes.  The lemmas below describe the key list and the point reads of the
merged document, from which idempotence and the frame property follow. -/

theorem orOpt_some (v : Value) (w : Option Value) : orOpt (some v) w = some v := rfl

theorem orOpt_none (w : Option Value) : orOpt none w = w := rfl

theorem mem_addKeys_left (a : String) : ∀ (ks : List String) (l : List String),
    a ∈ l → a ∈ addKeys l ks
  | [], l, h => h
  | k :: ks, l, h => by
    unfold addKeys
    apply mem_addKeys_left a ks
    by_cases hk : k ∈ l <;> simp [hk, h]

theorem mem_addKeys_right (a : String) : ∀ (ks : List String) (l : List String),
    a ∈ ks → a ∈ addKeys l ks
  | [], l, h => by cases h
  | k :: ks, l, h => by
    unfold addKeys
    rcases List.mem_cons.1 h with rfl | h2
    · apply mem_addKeys_left
      by_cases hk : a ∈ l <;> simp [hk]
    · exact mem_addKeys_right a ks _ h2

theorem addKeys_eq_of_subset : ∀ (ks : List String) (l : List String),
    (∀ a ∈ ks, a ∈ l) → addKeys l ks = l
  | [], l, _ => rfl
  | k :: ks, l, h => by
    unfold addKeys
    have hk : k ∈ l := h k (List.mem_cons_self k ks)
    rw [if_pos hk]
    exact addKeys_eq_of_subset ks l (fun a ha => h a (List.mem_cons_of_mem k ha))

theorem lookupLast_cons (p : String × Value) (rest : Dict) (k : String) :
    lookupLast (p :: rest) k =
      match lookupLast rest k with
      | some v => some v
      | none => if p.1 == k then some p.2 else none := rfl

theorem addKeys_cons (l : List String) (k : String) (ks : List String) :
    addKeys l (k :: ks) = addKeys (if k ∈ l then l else l ++ [k]) ks := rfl

theorem applyTopLevel_cons (c : Dict) (p : String × Value) (b : Dict) :
    applyTopLevel c (p :: b) = applyTopLevel (Dict.setKey c p.1 p.2) b := rfl

theorem getVal_applyTopLevel : ∀ (b : Dict) (c : Dict) (k : String),
    Dict.getVal (applyTopLevel c b) k = orOpt (lookupLast b k) (Dict.getVal c k)
  | [], c, k => rfl
  | p :: b, c, k => by
    rw [applyTopLevel_cons, getVal_applyTopLevel b _ k, lookupLast_cons]
    cases hl : lookupLast b k with
    | some v => rfl
    | none =>
      show Dict.getVal (Dict.setKey c p.1 p.2) k =
        orOpt (if p.1 == k then some p.2 else none) (Dict.getVal c k)
      cases hp : p.1 == k with
      | true =>
        have hpk : p.1 = k := eq_of_beq hp
        rw [if_pos rfl, hpk, Dict.getVal_setKey_self]
        rfl
      | false =>
        have hpk : k ≠ p.1 := fun hkk => by simp [hkk] at hp
        rw [if_neg (by simp), Dict.getVal_setKey_ne c p.1 k p.2 hpk]
        rfl

theorem keys_applyTopLevel : ∀ (b : Dict) (c : Dict),
    Dict.keys (applyTopLevel c b) = addKeys (Dict.keys c) (Dict.keys b)
  | [], c => rfl
  | p :: b, c => by
    rw [applyTopLevel_cons, keys_applyTopLevel b _]
    have hkeys : Dict.keys (p :: b) = p.1 :: Dict.keys b := rfl
    rw [hkeys, addKeys_cons, Dict.keys_setKey]
    by_cases hm : p.1 ∈ Dict.keys c
    · rw [if_pos ((Dict.mem_keys_iff_containsKey c p.1).1 hm), if_pos hm]
    · have hc : Dict.containsKey c p.1 = false := by
        cases hcc : Dict.containsKey c p.1
        · rfl
        · exact absurd ((Dict.mem_keys_iff_containsKey c p.1).2 hcc) hm
      rw [hc, if_neg hm]
      simp

theorem nodupKeys_applyTopLevel : ∀ (b : Dict) (c : Dict),
    Dict.NodupKeys c → Dict.NodupKeys (applyTopLevel c b)
  | [], _, h => h
  | p :: b, c, h => by
    rw [applyTopLevel_cons]
    exact nodupKeys_applyTopLevel b _ (Dict.nodupKeys_setKey p.1 p.2 h)

theorem getVal_setEnvironmentKey_env (cfg : Dict) (e key : String) (v : Value) :
    Dict.getVal (setEnvironmentKey cfg e key v) "environments" =
      envUpdate e key v (Dict.getVal cfg "environments") := by
  cases hg : Dict.getVal cfg "environments" with
  | none => simp [setEnvironmentKey, envUpdate, hg]
  | some w =>
    cases w with
    | vObj envs =>
      cases he : Dict.getVal envs e with
      | none => simp [setEnvironmentKey, envUpdate, hg, he]
      | some wenv =>
        cases wenv with
        | vObj environment =>
          simp [setEnvironmentKey, envUpdate, hg, he, Dict.getVal_setKey_self]
        | vStr s => simp [setEnvironmentKey, envUpdate, hg, he]
        | vInt n => simp [setEnvironmentKey, envUpdate, hg, he]
        | vBool bb => simp [setEnvironmentKey, envUpdate, hg, he]
        | vArr a => simp [setEnvironmentKey, envUpdate, hg, he]
    | vStr s => simp [setEnvironmentKey, envUpdate, hg]
    | vInt n => simp [setEnvironmentKey, envUpdate, hg]
    | vBool bb => simp [setEnvironmentKey, envUpdate, hg]
    | vArr a => simp [setEnvironmentKey, envUpdate, hg]

theorem getVal_setEnvironmentKey_ne (cfg : Dict) (e key : String) (v : Value)
    (k : String) (hk : k ≠ "environments") :
    Dict.getVal (setEnvironmentKey cfg e key v) k = Dict.getVal cfg k := by
  cases hg : Dict.getVal cfg "environments" with
  | none => simp [setEnvironmentKey, hg]
  | some w =>
    cases w with
    | vObj envs =>
      cases he : Dict.getVal envs e with
      | none => simp [setEnvironmentKey, hg, he]
      | some wenv =>
        cases wenv with
        | vObj environment =>
          simp only [setEnvironmentKey, hg, he]
          exact Dict.getVal_setKey_ne cfg "environments" k _ hk
        | vStr s => simp [setEnvironmentKey, hg, he]
        | vInt n => simp [setEnvironmentKey, hg, he]
        | vBool bb => simp [setEnvironmentKey, hg, he]
        | vArr a => simp [setEnvironmentKey, hg, he]
    | vStr s => simp [setEnvironmentKey, hg]
    | vInt n => simp [setEnvironmentKey, hg]
    | vBool bb => simp [setEnvironmentKey, hg]
    | vArr a => simp [setEnvironmentKey, hg]

theorem keys_setEnvironmentKey (cfg : Dict) (e key : String) (v : Value) :
    Dict.keys (setEnvironmentKey cfg e key v) = Dict.keys cfg := by
  cases hg : Dict.getVal cfg "environments" with
  | none => simp [setEnvironmentKey, hg]
  | some w =>
    cases w with
    | vObj envs =>
      cases he : Dict.getVal envs e with
      | none => simp [setEnvironmentKey, hg, he]
      | some wenv =>
        cases wenv with
        | vObj environment =>
          have hc : Dict.containsKey cfg "environments" = true := by
            rw [Dict.containsKey_eq_isSome, hg]
            rfl
          simp [setEnvironmentKey, hg, he, Dict.keys_setKey, hc]
        | vStr s => simp [setEnvironmentKey, hg, he]
        | vInt n => simp [setEnvironmentKey, hg, he]
        | vBool bb => simp [setEnvironmentKey, hg, he]
        | vArr a => simp [setEnvironmentKey, hg, he]
    | vStr s => simp [setEnvironmentKey, hg]
    | vInt n => simp [setEnvironmentKey, hg]
    | vBool bb => simp [setEnvironmentKey, hg]
    | vArr a => simp [setEnvironmentKey, hg]

theorem nodupKeys_setEnvironmentKey (cfg : Dict) (e key : String) (v : Value)
    (h : Dict.NodupKeys cfg) : Dict.NodupKeys (setEnvironmentKey cfg e key v) := by
  unfold Dict.NodupKeys at h ⊢
  rw [keys_setEnvironmentKey]
  exact h

/-! ### The merged document, key by key -/

theorem getVal_buildEnvironment_env (base : Dict) (e : String) (s : Dict)
    (bid : String) (b : Dict) (did : String) (d : Dict) :
    Dict.getVal (buildEnvironment base e s bid b did d) "environments" =
      mergedEnvironmentsValue e s bid b did d := by
  unfold buildEnvironment configureEnvironment mergedEnvironmentsValue
  rw [getVal_setEnvironmentKey_env, getVal_applyTopLevel, getVal_setEnvironmentKey_env,
    getVal_applyTopLevel, Dict.getVal_setKey_self]

theorem getVal_buildEnvironment_ne (base : Dict) (e : String) (s : Dict)
    (bid : String) (b : Dict) (did : String) (d : Dict)
    (k : String) (hk : k ≠ "environments") :
    Dict.getVal (buildEnvironment base e s bid b did d) k =
      orOpt (lookupLast d k) (orOpt (lookupLast b k) (Dict.getVal base k)) := by
  unfold buildEnvironment configureEnvironment
  rw [getVal_setEnvironmentKey_ne _ _ _ _ k hk, getVal_applyTopLevel,
    getVal_setEnvironmentKey_ne _ _ _ _ k hk, getVal_applyTopLevel,
    Dict.getVal_setKey_ne base "environments" k _ hk]

theorem keys_buildEnvironment (base : Dict) (e : String) (s : Dict)
    (bid : String) (b : Dict) (did : String) (d : Dict) :
    Dict.keys (buildEnvironment base e s bid b did d) =
      addKeys (addKeys (addKeys (Dict.keys base) ["environments"])
        (Dict.keys b)) (Dict.keys d) := by
  unfold buildEnvironment configureEnvironment
  rw [keys_setEnvironmentKey, keys_applyTopLevel, keys_setEnvironmentKey,
    keys_applyTopLevel, Dict.keys_setKey]
  by_cases hm : "environments" ∈ Dict.keys base
  · rw [if_pos ((Dict.mem_keys_iff_containsKey base "environments").1 hm),
      addKeys_cons, if_pos hm]
    rfl
  · have hc : Dict.containsKey base "environments" = false := by
      cases hcc : Dict.containsKey base "environments"
      · rfl
      · exact absurd ((Dict.mem_keys_iff_containsKey base "environments").2 hcc) hm
    rw [hc, addKeys_cons, if_neg hm]
    rfl

theorem nodupKeys_buildEnvironment (base : Dict) (e : String) (s : Dict)
    (bid : String) (b : Dict) (did : String) (d : Dict)
    (h : Dict.NodupKeys base) :
    Dict.NodupKeys (buildEnvironment base e s bid b did d) := by
  unfold buildEnvironment configureEnvironment
  exact nodupKeys_setEnvironmentKey _ _ _ _
    (nodupKeys_applyTopLevel _ _
      (nodupKeys_setEnvironmentKey _ _ _ _
        (nodupKeys_applyTopLevel _ _
          (Dict.nodupKeys_setKey _ _ h))))

theorem addKeys_merge_idem (l : List String) (bk dk : List String) :
    addKeys (addKeys (addKeys
        (addKeys (addKeys (addKeys l ["environments"]) bk) dk)
      ["environments"]) bk) dk =
      addKeys (addKeys (addKeys l ["environments"]) bk) dk := by
  have hsub1 : ∀ a ∈ ["environments"],
      a ∈ addKeys (addKeys (addKeys l ["environments"]) bk) dk := by
    intro a ha
    simp only [List.mem_singleton] at ha
    subst ha
    exact mem_addKeys_left _ _ _ (mem_addKeys_left _ _ _
      (mem_addKeys_right _ _ _ (by simp)))
  rw [addKeys_eq_of_subset _ _ hsub1]
  have hsub2 : ∀ a ∈ bk, a ∈ addKeys (addKeys (addKeys l ["environments"]) bk) dk :=
    fun a ha => mem_addKeys_left _ _ _ (mem_addKeys_right _ _ _ ha)
  rw [addKeys_eq_of_subset _ _ hsub2]
  exact addKeys_eq_of_subset _ _ (fun a ha => mem_addKeys_right _ _ _ ha)

/-! ### Support lemmas for the validator and the requirement tables -/

theorem isPropertyMissing_iff (cfg : Dict) (p : String) :
    isPropertyMissing cfg p = true ↔
      (Dict.containsKey cfg p = false ∨ Dict.getVal cfg p = some (.vStr "")) := by
  rw [Dict.containsKey_eq_isSome]
  cases hg : Dict.getVal cfg p with
  | none => simp [isPropertyMissing, hg]
  | some v =>
    cases v with
    | vStr s => simp [isPropertyMissing, hg, pyEqEmptyString]
    | vInt n => simp [isPropertyMissing, hg, pyEqEmptyString]
    | vBool b => simp [isPropertyMissing, hg, pyEqEmptyString]
    | vObj f => simp [isPropertyMissing, hg, pyEqEmptyString]
    | vArr a => simp [isPropertyMissing, hg, pyEqEmptyString]

theorem tableGet_eq_nil_of_not_mem (t : List (String × List String)) (id : String)
    (h : id ∉ t.map Prod.fst) : tableGet t id = [] := by
  have hf : t.find? (fun p => p.1 == id) = none := by
    rw [List.find?_eq_none]
    intro p hp hpe
    exact h (List.mem_map.2 ⟨p, hp, eq_of_beq hpe⟩)
  simp [tableGet, hf]

theorem lookupLast_eq_none_of_not_containsKey : ∀ (b : Dict) (k : String),
    Dict.containsKey b k = false → lookupLast b k = none
  | [], _, _ => rfl
  | p :: b, k, h => by
    rw [Dict.containsKey_cons] at h
    have h1 : (p.1 == k) = false := by
      cases hp : p.1 == k
      · rfl
      · rw [hp] at h
        simp at h
    have h2 : Dict.containsKey b k = false := by
      cases hc : Dict.containsKey b k
      · rfl
      · rw [hc] at h
        simp at h
    rw [lookupLast_cons, lookupLast_eq_none_of_not_containsKey b k h2]
    simp [h1]

theorem envUpdate_singleton (e key : String) (v : Value) (s : Dict) :
    envUpdate e key v (some (.vObj [(e, .vObj s)])) =
      some (.vObj [(e, .vObj (Dict.setKey s key v))]) := by
  simp [envUpdate, Dict.getVal, List.find?, Dict.setKey]

theorem runLookups_cached : ∀ (inputs : List String) (api orgs : List Organization)
    (st : GlobalState), st.cachedOrganizations = some orgs →
    (runLookups api st inputs).2 = 0
  | [], _, _, _, _ => rfl
  | input :: rest, api, orgs, st, h => by
    simp only [runLookups, getOrganizationId, h]
    rw [Nat.zero_add]
    exact runLookups_cached rest api orgs st h

/-! ### Claims -/

/-- C1: For every configuration document, brokerage `b` and
data-queue-handler `d`, the validator's set of missing properties equals
the set of keys in the concatenation of the two requirement lists that
are either absent from the document or bound to the empty string.  In
particular a required key whose value is `False` or `0` is never
reported missing, and a required key whose value is `""` always is. -/
theorem missingPropertySet_spec (cfg : Dict) (b d p : String) :
    (p ∈ missingPropertySet cfg b d ↔
      p ∈ brokerageRequirements b ++ dataQueueHandlerRequirements d ∧
        (Dict.containsKey cfg p = false ∨ Dict.getVal cfg p = some (.vStr ""))) ∧
    (∀ v, Dict.getVal cfg p = some v → (v = .vBool false ∨ v = .vInt 0) →
      p ∉ missingPropertySet cfg b d) ∧
    (Dict.getVal cfg p = some (.vStr "") →
      p ∈ brokerageRequirements b ++ dataQueueHandlerRequirements d →
      p ∈ missingPropertySet cfg b d) := by
  have hmain : p ∈ missingPropertySet cfg b d ↔
      p ∈ brokerageRequirements b ++ dataQueueHandlerRequirements d ∧
        (Dict.containsKey cfg p = false ∨ Dict.getVal cfg p = some (.vStr "")) := by
    rw [← isPropertyMissing_iff]
    simp only [missingPropertySet, missingPropertySetWith, List.mem_toFinset,
      List.mem_filter, List.mem_append, brokerageRequirements,
      dataQueueHandlerRequirements]
  refine ⟨hmain, ?_, ?_⟩
  · rintro v hv (rfl | rfl) hmem
    · rcases (hmain.1 hmem).2 with hc | he
      · rw [Dict.containsKey_eq_isSome, hv] at hc
        simp at hc
      · rw [hv] at he
        simp at he
    · rcases (hmain.1 hmem).2 with hc | he
      · rw [Dict.containsKey_eq_isSome, hv] at hc
        simp at hc
      · rw [hv] at he
        simp at he
  · intro he hmem
    exact hmain.2 ⟨hmem, Or.inr he⟩

/-- Witness for C1: a required key bound to the empty string is in the
missing set of a concrete document. -/
theorem missingPropertySet_spec_witness :
    "oanda-access-token" ∈ missingPropertySet [("oanda-access-token", Value.vStr "")]
      "OandaBrokerage" "OandaBrokerage" :=
  (missingPropertySet_spec [("oanda-access-token", Value.vStr "")] "OandaBrokerage"
    "OandaBrokerage" "oanda-access-token").2.2 rfl (by decide)

/-- Counterexample for C2: with both `live-mode-brokerage` and
`data-queue-handler` absent, the raised error names only the first key
checked — it is the `live-mode-brokerage` error, which is distinct from
the `data-queue-handler` error, so both keys are not reported. -/
theorem missingRequiredKey_counterexample :
    validateLive
        [("environments", Value.vObj [("myenv", Value.vObj [("live-mode", Value.vBool true)])])]
        "myenv" =
      .error (.missingRequiredKey "myenv" "live-mode-brokerage") ∧
    (ValidationError.missingRequiredKey "myenv" "live-mode-brokerage") ≠
      .missingRequiredKey "myenv" "data-queue-handler" :=
  ⟨rfl, by decide⟩

/-- C2 (amended): when the declared environment contains neither
`live-mode-brokerage` nor `data-queue-handler`, validation reports only
the first key checked, `live-mode-brokerage` — the key checks run in
sequence and the first failure raises — and the error message names the
environment. -/
theorem missingRequiredKey_reports_first_only (cfg : Dict) (e : String)
    (envs environment : Dict) (v : Value)
    (h1 : Dict.getVal cfg "environments" = some (.vObj envs))
    (h2 : Dict.getVal envs e = some (.vObj environment))
    (hlm : Dict.getVal environment "live-mode" = some v)
    (htr : truthy v = true)
    (hbrok : Dict.containsKey environment "live-mode-brokerage" = false)
    (_hdqh : Dict.containsKey environment "data-queue-handler" = false) :
    validateLive cfg e = .error (.missingRequiredKey e "live-mode-brokerage") ∧
    missingRequiredKeyMessage e "live-mode-brokerage" =
      "The '" ++ e ++ "' environment does not specify a live-mode-brokerage" := by
  constructor
  · have hc : Dict.containsKey envs e = true := by
      rw [Dict.containsKey_eq_isSome, h2]
      rfl
    simp [validateLive, validateLiveWith, raiseForMissingPropertiesWith,
      h1, h2, hlm, htr, hc, hbrok]
  · rw [missingRequiredKeyMessage, String.append_assoc]
    rfl

/-- Witness for C2 (amended) at a concrete configuration. -/
theorem missingRequiredKey_reports_first_only_witness :
    validateLive
        [("environments", Value.vObj [("prod", Value.vObj [("live-mode", Value.vBool true)])])]
        "prod" =
      .error (.missingRequiredKey "prod" "live-mode-brokerage") ∧
    missingRequiredKeyMessage "prod" "live-mode-brokerage" =
      "The '" ++ "prod" ++ "' environment does not specify a live-mode-brokerage" :=
  missingRequiredKey_reports_first_only _ "prod" _ _ (Value.vBool true)
    rfl rfl rfl rfl rfl rfl

/-- C3: every brokerage identifier that is also a key of the
data-queue-handler table has a data-queue-handler requirement list that
contains every key of its brokerage requirement list. -/
theorem dataQueueHandler_requirements_superset (bid : String)
    (hb : bid ∈ requiredBrokerageProperties.map Prod.fst)
    (hd : bid ∈ requiredDataQueueHandlerProperties.map Prod.fst) :
    ∀ p ∈ brokerageRequirements bid, p ∈ dataQueueHandlerRequirements bid := by
  simp only [requiredBrokerageProperties, List.map_cons, List.map_nil, List.mem_cons,
    List.not_mem_nil, or_false] at hb
  rcases hb with rfl | rfl | rfl | rfl | rfl | rfl | rfl | rfl
  · exact absurd hd (by decide)
  · decide
  · decide
  · exact absurd hd (by decide)
  · decide
  · decide
  · decide
  · decide

/-- Witness for C3: an Oanda brokerage requirement is also an Oanda
data-queue-handler requirement. -/
theorem dataQueueHandler_requirements_superset_witness :
    "oanda-environment" ∈ dataQueueHandlerRequirements "OandaBrokerage" :=
  dataQueueHandler_requirements_superset "OandaBrokerage" (by decide) (by decide)
    "oanda-environment" (by decide)

/-- C4: when validation fails because required properties are absent or
empty, the single raised error carries the full set of missing keys; in
scenario B (brokerage and data-queue-handler both `OandaBrokerage`, only
`oanda-account-id` present of the required Oanda keys) the error
contains exactly the set {oanda-access-token, oanda-environment}. -/
theorem missingRequiredProperties_full_set :
    (∀ (cfg : Dict) (e : String) (envs environment : Dict) (v : Value)
      (brokerage dataQueueHandler : String),
      Dict.getVal cfg "environments" = some (.vObj envs) →
      Dict.getVal envs e = some (.vObj environment) →
      Dict.getVal environment "live-mode" = some v →
      truthy v = true →
      Dict.getVal environment "live-mode-brokerage" = some (.vStr brokerage) →
      Dict.getVal environment "data-queue-handler" = some (.vStr dataQueueHandler) →
      missingPropertySet cfg brokerage dataQueueHandler ≠ ∅ →
      validateLive cfg e = .error (.missingRequiredProperties
        (missingPropertySet cfg brokerage dataQueueHandler))) ∧
    validateLive scenarioBConfig "lean-cli" =
      .error (.missingRequiredProperties {"oanda-access-token", "oanda-environment"}) := by
  have hgen : ∀ (cfg : Dict) (e : String) (envs environment : Dict) (v : Value)
      (brokerage dataQueueHandler : String),
      Dict.getVal cfg "environments" = some (.vObj envs) →
      Dict.getVal envs e = some (.vObj environment) →
      Dict.getVal environment "live-mode" = some v →
      truthy v = true →
      Dict.getVal environment "live-mode-brokerage" = some (.vStr brokerage) →
      Dict.getVal environment "data-queue-handler" = some (.vStr dataQueueHandler) →
      missingPropertySet cfg brokerage dataQueueHandler ≠ ∅ →
      validateLive cfg e = .error (.missingRequiredProperties
        (missingPropertySet cfg brokerage dataQueueHandler)) := by
    intro cfg e envs environment v brokerage dataQueueHandler h1 h2 hlm htr hbrok hdqh hne
    have hce : Dict.containsKey envs e = true := by
      rw [Dict.containsKey_eq_isSome, h2]
      rfl
    have hcb : Dict.containsKey environment "live-mode-brokerage" = true := by
      rw [Dict.containsKey_eq_isSome, hbrok]
      rfl
    have hcd : Dict.containsKey environment "data-queue-handler" = true := by
      rw [Dict.containsKey_eq_isSome, hdqh]
      rfl
    rw [missingPropertySet, missingPropertySetWith] at hne ⊢
    simp at hne
    simp [validateLive, validateLiveWith, raiseForMissingPropertiesWith, h1, h2, hlm,
      htr, hce, hcb, hcd, hbrok, hdqh, hne]
  refine ⟨hgen, ?_⟩
  have h := hgen scenarioBConfig "lean-cli"
    [("lean-cli", Value.vObj
      [("live-mode", Value.vBool true),
       ("live-mode-brokerage", Value.vStr "OandaBrokerage"),
       ("data-queue-handler", Value.vStr "OandaBrokerage")])]
    [("live-mode", Value.vBool true),
     ("live-mode-brokerage", Value.vStr "OandaBrokerage"),
     ("data-queue-handler", Value.vStr "OandaBrokerage")]
    (Value.vBool true) "OandaBrokerage" "OandaBrokerage" rfl rfl rfl rfl rfl rfl
    (by decide)
  rw [h]
  have hset : missingPropertySet scenarioBConfig "OandaBrokerage" "OandaBrokerage" =
      {"oanda-access-token", "oanda-environment"} := by decide
  rw [hset]

/-- Witness for C4 at a concrete Bitfinex configuration with no
credential keys present. -/
theorem missingRequiredProperties_full_set_witness :
    validateLive [("environments", Value.vObj [("w4", Value.vObj
        [("live-mode", Value.vBool true),
         ("live-mode-brokerage", Value.vStr "BitfinexBrokerage"),
         ("data-queue-handler", Value.vStr "BitfinexBrokerage")])])] "w4" =
      .error (.missingRequiredProperties
        (missingPropertySet [("environments", Value.vObj [("w4", Value.vObj
            [("live-mode", Value.vBool true),
             ("live-mode-brokerage", Value.vStr "BitfinexBrokerage"),
             ("data-queue-handler", Value.vStr "BitfinexBrokerage")])])]
          "BitfinexBrokerage" "BitfinexBrokerage")) :=
  missingRequiredProperties_full_set.1 _ "w4" _ _ (Value.vBool true)
    "BitfinexBrokerage" "BitfinexBrokerage" rfl rfl rfl rfl rfl rfl (by decide)

/-- Counterexample for C5: an environment lacking `live-mode-brokerage`
whose live-mode flag is falsy fails with `NotLiveEnvironment`, not with
the claimed `MissingRequiredKey` — the live-mode check runs before the
key-presence checks. -/
theorem validateLive_check_order_counterexample :
    validateLive [("environments", Value.vObj [("backtest", Value.vObj
        [("live-mode", Value.vBool false)])])] "backtest" =
      .error (.notLiveEnvironment "backtest") ∧
    (ValidationError.notLiveEnvironment "backtest") ≠
      .missingRequiredKey "backtest" "live-mode-brokerage" :=
  ⟨rfl, by decide⟩

/-- C5 (amended): the checks run in the order environment presence, then
the live-mode flag (`NotLiveEnvironment` when falsy), then presence of
`live-mode-brokerage`, then presence of `data-queue-handler` — the two
key checks succeed or fail identically for arbitrary requirement tables,
so a missing key is reported before the tables are ever consulted; an
environment lacking `live-mode-brokerage` with a falsy live-mode flag
fails with `NotLiveEnvironment`. -/
theorem validateLive_check_order :
    (∀ (cfg : Dict) (e : String) (envs : Dict),
      Dict.getVal cfg "environments" = some (.vObj envs) →
      Dict.containsKey envs e = false →
      validateLive cfg e = .error (.environmentUndeclared e)) ∧
    (∀ (cfg : Dict) (e : String) (envs environment : Dict) (v : Value),
      Dict.getVal cfg "environments" = some (.vObj envs) →
      Dict.getVal envs e = some (.vObj environment) →
      Dict.getVal environment "live-mode" = some v →
      truthy v = false →
      validateLive cfg e = .error (.notLiveEnvironment e)) ∧
    (∀ (brokTable dqhTable : List (String × List String)) (cfg : Dict) (e : String)
      (envs environment : Dict) (v : Value),
      Dict.getVal cfg "environments" = some (.vObj envs) →
      Dict.getVal envs e = some (.vObj environment) →
      Dict.getVal environment "live-mode" = some v →
      truthy v = true →
      Dict.containsKey environment "live-mode-brokerage" = false →
      validateLiveWith brokTable dqhTable cfg e =
        .error (.missingRequiredKey e "live-mode-brokerage")) ∧
    (∀ (brokTable dqhTable : List (String × List String)) (cfg : Dict) (e : String)
      (envs environment : Dict) (v : Value),
      Dict.getVal cfg "environments" = some (.vObj envs) →
      Dict.getVal envs e = some (.vObj environment) →
      Dict.getVal environment "live-mode" = some v →
      truthy v = true →
      Dict.containsKey environment "live-mode-brokerage" = true →
      Dict.containsKey environment "data-queue-handler" = false →
      validateLiveWith brokTable dqhTable cfg e =
        .error (.missingRequiredKey e "data-queue-handler")) := by
  refine ⟨?_, ?_, ?_, ?_⟩
  · intro cfg e envs h1 hc
    simp [validateLive, validateLiveWith, h1, hc]
  · intro cfg e envs environment v h1 h2 hlm htr
    have hce : Dict.containsKey envs e = true := by
      rw [Dict.containsKey_eq_isSome, h2]
      rfl
    simp [validateLive, validateLiveWith, h1, h2, hlm, htr, hce]
  · intro brokTable dqhTable cfg e envs environment v h1 h2 hlm htr hbrok
    have hce : Dict.containsKey envs e = true := by
      rw [Dict.containsKey_eq_isSome, h2]
      rfl
    simp [validateLiveWith, raiseForMissingPropertiesWith, h1, h2, hlm, htr, hce, hbrok]
  · intro brokTable dqhTable cfg e envs environment v h1 h2 hlm htr hbrok hdqh
    have hce : Dict.containsKey envs e = true := by
      rw [Dict.containsKey_eq_isSome, h2]
      rfl
    simp [validateLiveWith, raiseForMissingPropertiesWith, h1, h2, hlm, htr, hce,
      hbrok, hdqh]

/-- Witness for C5 at a concrete configuration lacking only
`data-queue-handler`. -/
theorem validateLive_check_order_witness :
    validateLive [("environments", Value.vObj [("w5", Value.vObj
        [("live-mode", Value.vBool true),
         ("live-mode-brokerage", Value.vStr "OandaBrokerage")])])] "w5" =
      .error (.missingRequiredKey "w5" "data-queue-handler") :=
  validateLive_check_order.2.2.2 requiredBrokerageProperties
    requiredDataQueueHandlerProperties _ "w5" _ _ (Value.vBool true)
    rfl rfl rfl rfl rfl rfl

/-- C6: the environment-building merge is idempotent — invoking it twice
with identical arguments yields a document identical to invoking it
once, for every base document with the Python-dictionary unique-key
invariant. -/
theorem buildEnvironment_idempotent (base : Dict) (environmentName : String)
    (skeleton : Dict) (brokerageId : String) (brokerageConfig : Dict)
    (dataFeedId : String) (dataFeedConfig : Dict) (h : Dict.NodupKeys base) :
    buildEnvironment
        (buildEnvironment base environmentName skeleton brokerageId brokerageConfig
          dataFeedId dataFeedConfig)
        environmentName skeleton brokerageId brokerageConfig dataFeedId dataFeedConfig =
      buildEnvironment base environmentName skeleton brokerageId brokerageConfig
        dataFeedId dataFeedConfig := by
  have hX := nodupKeys_buildEnvironment base environmentName skeleton brokerageId
    brokerageConfig dataFeedId dataFeedConfig h
  have hXX := nodupKeys_buildEnvironment _ environmentName skeleton brokerageId
    brokerageConfig dataFeedId dataFeedConfig hX
  apply Dict.ext_of_keys_getVal _ _ hXX hX
  · rw [keys_buildEnvironment, keys_buildEnvironment]
    exact addKeys_merge_idem _ _ _
  · intro k
    by_cases hk : k = "environments"
    · subst hk
      rw [getVal_buildEnvironment_env, getVal_buildEnvironment_env]
    · rw [getVal_buildEnvironment_ne _ _ _ _ _ _ _ k hk,
        getVal_buildEnvironment_ne _ _ _ _ _ _ _ k hk]
      cases lookupLast dataFeedConfig k <;> cases lookupLast brokerageConfig k <;> rfl

/-- Witness for C6 at a concrete base configuration. -/
theorem buildEnvironment_idempotent_witness :
    Dict.NodupKeys [("organization-id", Value.vStr "abc"),
      ("data-folder", Value.vStr "data")] ∧
    buildEnvironment
        (buildEnvironment [("organization-id", Value.vStr "abc"),
            ("data-folder", Value.vStr "data")]
          "lean-cli" environmentSkeleton "OandaBrokerage"
          [("oanda-account-id", Value.vStr "001")] "OandaBrokerage" [])
        "lean-cli" environmentSkeleton "OandaBrokerage"
        [("oanda-account-id", Value.vStr "001")] "OandaBrokerage" [] =
      buildEnvironment [("organization-id", Value.vStr "abc"),
          ("data-folder", Value.vStr "data")]
        "lean-cli" environmentSkeleton "OandaBrokerage"
        [("oanda-account-id", Value.vStr "001")] "OandaBrokerage" [] :=
  ⟨by decide,
   buildEnvironment_idempotent _ "lean-cli" environmentSkeleton "OandaBrokerage"
     [("oanda-account-id", Value.vStr "001")] "OandaBrokerage" [] (by decide)⟩

/-- Counterexample for C7: building the `lean-cli` environment removes a
pre-existing environment named `other` — the merge replaces the whole
`environments` mapping instead of writing only `environments[e]`. -/
theorem buildEnvironment_frame_counterexample :
    lookupEnvironment (buildEnvironment
        [("environments", Value.vObj [("other", Value.vObj [("live-mode", Value.vBool true)])])]
        "lean-cli" environmentSkeleton "PaperTradingBrokerage" [] "PaperTradingBrokerage" [])
      "other" = none ∧
    lookupEnvironment
        [("environments", Value.vObj [("other", Value.vObj [("live-mode", Value.vBool true)])])]
      "other" = some (Value.vObj [("live-mode", Value.vBool true)]) :=
  ⟨rfl, rfl⟩

/-- C7 (amended): building an environment named `e` sets the top-level
`environments` key to a mapping containing only `e` — discarding every
pre-existing environment, including those with names other than `e` —
and modifies top-level keys only at the brokerage/data-feed credential
keys: every other top-level key keeps its value (the hypotheses say the
credential dictionaries do not themselves use the `environments` key). -/
theorem buildEnvironment_replaces_environments (base : Dict) (e : String) (s : Dict)
    (bid : String) (b : Dict) (did : String) (d : Dict)
    (hb : Dict.containsKey b "environments" = false)
    (hd : Dict.containsKey d "environments" = false) :
    Dict.getVal (buildEnvironment base e s bid b did d) "environments" =
      some (.vObj [(e, .vObj (Dict.setKey
        (Dict.setKey s "live-mode-brokerage" (.vStr bid))
        "data-queue-handler" (.vStr did)))]) ∧
    ∀ k, k ≠ "environments" → Dict.containsKey b k = false →
      Dict.containsKey d k = false →
      Dict.getVal (buildEnvironment base e s bid b did d) k = Dict.getVal base k := by
  constructor
  · rw [getVal_buildEnvironment_env]
    unfold mergedEnvironmentsValue
    rw [lookupLast_eq_none_of_not_containsKey b _ hb,
      lookupLast_eq_none_of_not_containsKey d _ hd, orOpt_none, orOpt_none,
      envUpdate_singleton, envUpdate_singleton]
  · intro k hk hbk hdk
    rw [getVal_buildEnvironment_ne _ _ _ _ _ _ _ k hk,
      lookupLast_eq_none_of_not_containsKey b _ hbk,
      lookupLast_eq_none_of_not_containsKey d _ hdk, orOpt_none, orOpt_none]

/-- Witness for C7 (amended) at a concrete configuration. -/
theorem buildEnvironment_replaces_environments_witness :
    Dict.getVal (buildEnvironment [("organization-id", Value.vStr "abc")]
        "lean-cli" environmentSkeleton "OandaBrokerage"
        [("oanda-account-id", Value.vStr "001")] "OandaBrokerage" [])
      "environments" =
      some (.vObj [("lean-cli", .vObj (Dict.setKey
        (Dict.setKey environmentSkeleton "live-mode-brokerage" (.vStr "OandaBrokerage"))
        "data-queue-handler" (.vStr "OandaBrokerage")))]) ∧
    Dict.getVal (buildEnvironment [("organization-id", Value.vStr "abc")]
        "lean-cli" environmentSkeleton "OandaBrokerage"
        [("oanda-account-id", Value.vStr "001")] "OandaBrokerage" [])
      "organization-id" =
      Dict.getVal [("organization-id", Value.vStr "abc")] "organization-id" :=
  ⟨(buildEnvironment_replaces_environments _ "lean-cli" environmentSkeleton
      "OandaBrokerage" [("oanda-account-id", Value.vStr "001")]
      "OandaBrokerage" [] rfl rfl).1,
   (buildEnvironment_replaces_environments _ "lean-cli" environmentSkeleton
      "OandaBrokerage" [("oanda-account-id", Value.vStr "001")]
      "OandaBrokerage" [] rfl rfl).2 "organization-id"
     (by decide) rfl rfl⟩

/-- C8: requirement-table lookup is total — an identifier outside a
table yields the empty requirement list rather than an error — and an
unknown identifier is not an error during validation in either
position: a configuration whose environment names an unknown brokerage
validates successfully when every data-queue-handler requirement is
present and non-empty, and one naming an unknown data-queue-handler
validates successfully when every brokerage requirement is present and
non-empty. -/
theorem requirement_lookup_total :
    (∀ id, id ∉ requiredBrokerageProperties.map Prod.fst →
      brokerageRequirements id = []) ∧
    (∀ id, id ∉ requiredDataQueueHandlerProperties.map Prod.fst →
      dataQueueHandlerRequirements id = []) ∧
    (∀ (cfg : Dict) (e : String) (envs environment : Dict) (v : Value)
      (brokerage dataQueueHandler : String),
      Dict.getVal cfg "environments" = some (.vObj envs) →
      Dict.getVal envs e = some (.vObj environment) →
      Dict.getVal environment "live-mode" = some v →
      truthy v = true →
      Dict.getVal environment "live-mode-brokerage" = some (.vStr brokerage) →
      Dict.getVal environment "data-queue-handler" = some (.vStr dataQueueHandler) →
      brokerage ∉ requiredBrokerageProperties.map Prod.fst →
      (∀ p ∈ dataQueueHandlerRequirements dataQueueHandler,
        isPropertyMissing cfg p = false) →
      validateLive cfg e = .ok ()) ∧
    (∀ (cfg : Dict) (e : String) (envs environment : Dict) (v : Value)
      (brokerage dataQueueHandler : String),
      Dict.getVal cfg "environments" = some (.vObj envs) →
      Dict.getVal envs e = some (.vObj environment) →
      Dict.getVal environment "live-mode" = some v →
      truthy v = true →
      Dict.getVal environment "live-mode-brokerage" = some (.vStr brokerage) →
      Dict.getVal environment "data-queue-handler" = some (.vStr dataQueueHandler) →
      dataQueueHandler ∉ requiredDataQueueHandlerProperties.map Prod.fst →
      (∀ p ∈ brokerageRequirements brokerage,
        isPropertyMissing cfg p = false) →
      validateLive cfg e = .ok ()) := by
  refine ⟨?_, ?_, ?_, ?_⟩
  · intro id hid
    exact tableGet_eq_nil_of_not_mem _ id hid
  · intro id hid
    exact tableGet_eq_nil_of_not_mem _ id hid
  · intro cfg e envs environment v brokerage dataQueueHandler h1 h2 hlm htr hbrok hdqh
      hunknown hsat
    have hce : Dict.containsKey envs e = true := by
      rw [Dict.containsKey_eq_isSome, h2]
      rfl
    have hcb : Dict.containsKey environment "live-mode-brokerage" = true := by
      rw [Dict.containsKey_eq_isSome, hbrok]
      rfl
    have hcd : Dict.containsKey environment "data-queue-handler" = true := by
      rw [Dict.containsKey_eq_isSome, hdqh]
      rfl
    have hnil : tableGet requiredBrokerageProperties brokerage = [] :=
      tableGet_eq_nil_of_not_mem _ _ hunknown
    have hfilter : (tableGet requiredDataQueueHandlerProperties dataQueueHandler).filter
        (fun p => isPropertyMissing cfg p) = [] := by
      rw [List.filter_eq_nil_iff]
      intro p hp
      rw [hsat p hp]
      simp
    simp [validateLive, validateLiveWith, raiseForMissingPropertiesWith, h1, h2, hlm,
      htr, hce, hcb, hcd, hbrok, hdqh, hnil, hfilter, dataQueueHandlerRequirements]
  · intro cfg e envs environment v brokerage dataQueueHandler h1 h2 hlm htr hbrok hdqh
      hunknown hsat
    have hce : Dict.containsKey envs e = true := by
      rw [Dict.containsKey_eq_isSome, h2]
      rfl
    have hcb : Dict.containsKey environment "live-mode-brokerage" = true := by
      rw [Dict.containsKey_eq_isSome, hbrok]
      rfl
    have hcd : Dict.containsKey environment "data-queue-handler" = true := by
      rw [Dict.containsKey_eq_isSome, hdqh]
      rfl
    have hnil : tableGet requiredDataQueueHandlerProperties dataQueueHandler = [] :=
      tableGet_eq_nil_of_not_mem _ _ hunknown
    have hfilter : (tableGet requiredBrokerageProperties brokerage).filter
        (fun p => isPropertyMissing cfg p) = [] := by
      rw [List.filter_eq_nil_iff]
      intro p hp
      rw [hsat p hp]
      simp
    simp [validateLive, validateLiveWith, raiseForMissingPropertiesWith, h1, h2, hlm,
      htr, hce, hcb, hcd, hbrok, hdqh, hnil, hfilter, brokerageRequirements]

/-- Witness for C8: an unknown brokerage identifier with a fully
configured Oanda data feed validates successfully, and so does an
unknown data-queue-handler identifier with a fully configured Oanda
brokerage. -/
theorem requirement_lookup_total_witness :
    validateLive
        [("environments", Value.vObj [("w8", Value.vObj
            [("live-mode", Value.vBool true),
             ("live-mode-brokerage", Value.vStr "SomeFutureBrokerage"),
             ("data-queue-handler", Value.vStr "OandaBrokerage")])]),
         ("oanda-environment", Value.vStr "Practice"),
         ("oanda-access-token", Value.vStr "token"),
         ("oanda-account-id", Value.vStr "001")] "w8" = .ok () ∧
    validateLive
        [("environments", Value.vObj [("w8b", Value.vObj
            [("live-mode", Value.vBool true),
             ("live-mode-brokerage", Value.vStr "OandaBrokerage"),
             ("data-queue-handler", Value.vStr "SomeFutureFeed")])]),
         ("oanda-environment", Value.vStr "Practice"),
         ("oanda-access-token", Value.vStr "token"),
         ("oanda-account-id", Value.vStr "001")] "w8b" = .ok () :=
  ⟨requirement_lookup_total.2.2.1 _ "w8" _ _ (Value.vBool true)
     "SomeFutureBrokerage" "OandaBrokerage" rfl rfl rfl rfl rfl rfl
     (by decide) (by decide),
   requirement_lookup_total.2.2.2 _ "w8b" _ _ (Value.vBool true)
     "OandaBrokerage" "SomeFutureFeed" rfl rfl rfl rfl rfl rfl
     (by decide) (by decide)⟩

/-- C9: within one command invocation the full organization list is
fetched at most once however many name/id resolutions occur, and the
global reset at the start of the command body clears both process-wide
caches whatever state a previous invocation left behind. -/
theorem organization_cache_per_invocation (api : List Organization)
    (priorState : GlobalState) (inputs : List String) :
    (commandInvocation api priorState inputs).2 ≤ 1 ∧
    (resetGlobals priorState).cachedOrganizations = none ∧
    (resetGlobals priorState).cachedLeanConfig = none := by
  refine ⟨?_, rfl, rfl⟩
  cases inputs with
  | nil => exact Nat.zero_le 1
  | cons input rest =>
    show (runLookups api (resetGlobals priorState) (input :: rest)).2 ≤ 1
    simp only [runLookups, getOrganizationId, resetGlobals]
    rw [runLookups_cached rest api api _ rfl]

/-- C10: when the named environment exists but has no `live-mode` key at
all, the live command's raw `["live-mode"]` access raises an uncaught
KeyError — modelled as the `pythonKeyError` outcome, distinct from
`NotLiveEnvironment` and every other error of the documented taxonomy. -/
theorem validateLive_live_mode_keyerror (cfg : Dict) (e : String)
    (envs environment : Dict)
    (h1 : Dict.getVal cfg "environments" = some (.vObj envs))
    (h2 : Dict.getVal envs e = some (.vObj environment))
    (h3 : Dict.getVal environment "live-mode" = none) :
    validateLive cfg e = .error (.pythonKeyError "live-mode") := by
  have hce : Dict.containsKey envs e = true := by
    rw [Dict.containsKey_eq_isSome, h2]
    rfl
  simp [validateLive, validateLiveWith, h1, h2, h3, hce]

/-- Witness for C10 at a concrete environment lacking `live-mode`. -/
theorem validateLive_live_mode_keyerror_witness :
    validateLive [("environments", Value.vObj [("w10", Value.vObj
        [("live-mode-brokerage", Value.vStr "OandaBrokerage")])])] "w10" =
      .error (.pythonKeyError "live-mode") :=
  validateLive_live_mode_keyerror _ "w10" _ _ rfl rfl rfl

end LeanCLI
